import Mathlib

/-!
Verification development for the Clipboard Hub v6 browser extension
(content script `content-script.js` plus the background blob-store worker).

The JavaScript is shallowly embedded: every definition below mirrors a
function of the source.  JavaScript numbers are modelled as `Nat`/`Int`
(with explicit `% 2 ^ 32` where the source relies on 32-bit wrap-around)
and as `ℚ` for the image-scaling arithmetic; `Date.now()` values and the
asynchronous outcomes of platform calls (image decode/encode, blob-store
round trips, data-URL encoding) are passed in explicitly as parameters.
The `uid()` generator (`Date.now().toString(36) + Math.random()...`) is
modelled as a fresh counter, matching the spec invariant that ids are
globally unique and never reused.
-/

/-! ## Small utilities (content-script.js, top of file) -/

/-- JavaScript whitespace characters relevant to `trimEnd`/`trim`
(space, tab, LF, CR, VT, FF, NBSP, BOM). -/
def isJsWs (c : Char) : Bool :=
  c = ' ' ∨ c = '\t' ∨ c = '\n' ∨ c = '\r' ∨ c.toNat = 11 ∨ c.toNat = 12 ∨
    c.toNat = 0xA0 ∨ c.toNat = 0xFEFF

/-- Model of `String.prototype.trimEnd`. -/
def trimEnd (s : String) : String :=
  String.mk ((s.data.reverse.dropWhile isJsWs).reverse)

/-- Model of `String.prototype.trim` (both ends). -/
def jsTrim (s : String) : String :=
  String.mk (((s.data.dropWhile isJsWs).reverse.dropWhile isJsWs).reverse)

/-- First `n` UTF-16 units of a string, model of `s.slice(0, n)`
(code points and UTF-16 units agree on the BMP inputs we consider). -/
def takeChars (n : Nat) (s : String) : String :=
  String.mk (s.data.take n)

/-- One step of the FNV-1a style loop in `hash32`:
`h ^= c; h = (h + (h<<1) + (h<<4) + (h<<7) + (h<<8) + (h<<24)) >>> 0`.
The shift-add chain equals multiplication by `16777619` modulo `2 ^ 32`. -/
def hashStep (h c : Nat) : Nat :=
  ((h ^^^ c) * 16777619) % 4294967296

/-- Numeric value of `hash32` before hex formatting (seed `0x811c9dc5`,
`charCodeAt` modelled as the character's code point). -/
def hashNat (s : String) : Nat :=
  s.data.foldl (fun h ch => hashStep h ch.toNat) 0x811c9dc5

/-- Lower-case hex digit for a nibble. -/
def hexDigit (n : Nat) : Char :=
  if n < 10 then Char.ofNat (48 + n) else Char.ofNat (87 + n)

/-- Model of `('0000000' + h.toString(16)).slice(-8)`: the value printed
as exactly eight lower-case hex digits. -/
def toHex8 (n : Nat) : String :=
  String.mk [hexDigit (n / 16 ^ 7 % 16), hexDigit (n / 16 ^ 6 % 16),
    hexDigit (n / 16 ^ 5 % 16), hexDigit (n / 16 ^ 4 % 16),
    hexDigit (n / 16 ^ 3 % 16), hexDigit (n / 16 ^ 2 % 16),
    hexDigit (n / 16 % 16), hexDigit (n % 16)]

/-- Model of `hash32(str)` from the content script. -/
def hash32 (s : String) : String := toHex8 (hashNat s)

/-- Base64 alphabet used by `FileReader.readAsDataURL`. -/
def b64Char (n : Nat) : Char :=
  "ABCDEFGHIJKLMNOPQRSTUVWXYZabcdefghijklmnopqrstuvwxyz0123456789+/".data.getD n 'A'

/-- Standard base64 of a byte list. -/
def b64encode : List Nat → String
  | [] => ""
  | [a] =>
    String.mk [b64Char (a / 4 % 64), b64Char (a % 4 * 16), '=', '=']
  | [a, b] =>
    String.mk [b64Char (a / 4 % 64), b64Char (a % 4 * 16 + b / 16),
      b64Char (b % 16 * 4), '=']
  | a :: b :: c :: rest =>
    String.mk [b64Char (a / 4 % 64), b64Char (a % 4 * 16 + b / 16),
      b64Char (b % 16 * 4 + c / 64), b64Char (c % 64)] ++ b64encode rest

/-- Model of `String.prototype.startsWith` as used by the mime checks
(`blob.type.startsWith('image/')`): the needle is a character-prefix. -/
def strStartsWith (s p : String) : Bool :=
  decide (s.data.take p.data.length = p.data)

/-- Model of `clamp(n, a, b) = Math.min(b, Math.max(a, n))`. -/
def clampQ (n a b : ℚ) : ℚ := min b (max a n)

/-- Model of `Math.round` on the (non-negative) values that occur here:
`round x = ⌊x + 1/2⌋`. -/
def jsRound (q : ℚ) : ℤ := ⌊q + 1 / 2⌋

/-! ## Constants (content-script.js lines 50-54) -/

def ingestDedupWindowMs : Int := 900
def imageSoftLimit : Nat := 2 * 1024 * 1024
def imageMaxDim : Nat := 2048

/-! ## Data model -/

/-- A binary payload (`Blob`/`File`).  `isFile` distinguishes a `File`
(which carries a usable `name`) from a plain `Blob`; `width`/`height`
are the decoded image dimensions used by the transcoder. -/
structure FileData where
  mime : String := ""
  name : String := ""
  bytes : List Nat := []
  lastModified : Int := 0
  isFile : Bool := false
  width : Nat := 0
  height : Nat := 0
deriving DecidableEq

/-- Model of `blob.size`: the byte length of the payload. -/
def FileData.size (f : FileData) : Nat := f.bytes.length

/-- A history item.  Absent JavaScript fields are modelled by the falsy
defaults the source tests for (`''`, `none`, `false`); `error` holds the
string `'persist_failed'` when set. -/
structure Item where
  id : Nat := 0
  kind : String := ""
  createdAt : Int := 0
  text : String := ""
  html : String := ""
  blobId : Option Nat := none
  name : String := ""
  mime : String := ""
  size : Nat := 0
  dataUrl : String := ""
  pending : Bool := false
  error : String := ""
  expanded : Bool := false
deriving DecidableEq

/-- A record of the worker-side IndexedDB `blobs` object store. -/
structure BlobRecord where
  id : Nat := 0
  bytes : List Nat := []
  mime : String := ""
  name : String := ""
  size : Nat := 0
  lastModified : Int := 0
  savedAt : Int := 0
deriving DecidableEq

/-- An entry of the legacy `clip_hub_v5_data` record. -/
structure LegacyItem where
  kind : String := ""
  createdAt : Int := 0
  text : String := ""
  html : String := ""
  name : String := ""
  mime : String := ""
  size : Nat := 0
  dataUrl : String := ""
  dataUrlPersisted : String := ""
deriving DecidableEq

/-- Combined content-script state: the in-memory item list, the session
blob cache (`blobCache`, tracked by key), the worker blob store, the two
`storage.local` keys (`clip_hub_v6_state` as `v6`, `clip_hub_v5_data`
as `v5`), the `lastIngest` signature record and the fresh-id counter. -/
structure HubState where
  items : List Item := []
  cache : List Nat := []
  store : List BlobRecord := []
  v6 : Option (List Item) := none
  v5 : List LegacyItem := []
  lastSig : String := ""
  lastAt : Int := 0
  uidNext : Nat := 0
deriving DecidableEq

/-! ## Worker blob store primitives (part_000) -/

/-- IndexedDB `store.get(id)`. -/
def lookupRecord (store : List BlobRecord) (i : Nat) : Option BlobRecord :=
  store.find? (fun r => r.id = i)

/-- IndexedDB `store.delete(id)`. -/
def deleteRecord (store : List BlobRecord) (i : Nat) : List BlobRecord :=
  store.filter (fun r => r.id ≠ i)

/-- IndexedDB `store.put(record)` (replace by key). -/
def putRecord (store : List BlobRecord) (r : BlobRecord) : List BlobRecord :=
  r :: deleteRecord store r.id

/-- Mime reported by `getBlob`:
`record.mime || record.blob.type || 'application/octet-stream'`. -/
def respMime (r : BlobRecord) : String :=
  if r.mime ≠ "" then r.mime else "application/octet-stream"

/-! ## Image transcoder (`maybeCompressImage`, lines 118-154) -/

/-- Outcomes of the platform calls inside `maybeCompressImage`:
whether `img.decode()` succeeds, whether `canvas.getContext('2d')` is
available, and what `canvas.toBlob` produces for requested dimensions. -/
structure ImgEnv where
  decodeOk : Bool
  ctxOk : Bool
  encode : Nat → Nat → Option FileData

/-- Scale factor `clamp(IMAGE_MAX_DIM / maxDim, 0.15, 1)`.  When
`maxDim = 0`, JavaScript division yields `Infinity` and the clamp gives
`1`, which the caller treats as no-op. -/
def scaleOf (blob : FileData) : ℚ :=
  let maxDim := max blob.width blob.height
  if maxDim = 0 then 1
  else clampQ ((imageMaxDim : ℚ) / (maxDim : ℚ)) (15 / 100) 1

/-- Target width `Math.max(1, Math.round(width * scale))`. -/
def targetW (blob : FileData) : Nat :=
  max 1 (jsRound ((blob.width : ℚ) * scaleOf blob)).toNat

/-- Target height `Math.max(1, Math.round(height * scale))`. -/
def targetH (blob : FileData) : Nat :=
  max 1 (jsRound ((blob.height : ℚ) * scaleOf blob)).toNat

/-- Model of `maybeCompressImage`. -/
def maybeCompressImage (env : ImgEnv) (blob : FileData) : FileData :=
  if ¬ strStartsWith blob.mime "image/" then blob
  else if blob.size ≤ imageSoftLimit then blob
  else if ¬ env.decodeOk then blob
  else if (999 : ℚ) / 1000 ≤ scaleOf blob then blob
  else if ¬ env.ctxOk then blob
  else
    match env.encode (targetW blob) (targetH blob) with
    | none => blob
    | some out => if 0 < out.size ∧ out.size < blob.size then out else blob

/-! ## Persistence and item operations (content-script.js lines 620-820) -/

/-- Projection persisted by `persistMetadata`: object-spread dropping
`expanded`, `pending`, `error` (modelled by resetting them to their
falsy defaults, the representation of an absent field). -/
def stripTransient (it : Item) : Item :=
  {it with pending := false, error := "", expanded := false}

/-- State after `persistMetadata()`: `storage.local[STORAGE_KEY]` holds
the serializable projection of the item list. -/
def persistMetadata (st : HubState) : HubState :=
  {st with v6 := some (st.items.map stripTransient)}

/-- Model of `addText({text, html})` (lines 808-820). -/
def addText (st : HubState) (now : Int) (text html : String) : HubState :=
  let t := trimEnd text
  let h := trimEnd html
  if t = "" ∧ h = "" then st
  else
    let item : Item :=
      {id := st.uidNext, kind := "text", createdAt := now, text := t, html := h}
    persistMetadata {st with items := item :: st.items, uidNext := st.uidNext + 1}

/-- Model of `mime.split('/')[1] || 'png'`. -/
def mimeSub (m : String) : String :=
  match m.splitOn "/" with
  | _ :: s :: _ => if s = "" then "png" else s
  | _ => "png"

/-- Asynchronous outcomes the ingest pipeline depends on: the image
transcoder environment, whether the `blob.put` round trip for a given
blob id succeeds, and whether the data-URL fallback encoding for a
given blob id succeeds. -/
structure IngestEnv where
  img : ImgEnv
  putOk : Nat → Bool
  fallbackOk : Nat → Bool

/-- Values computed at the top of `addBlob` (lines 746-770): the
possibly transcoded payload re-wrapped as a `File`, plus the final
mime and file name recorded on the item. -/
structure BlobPlan where
  ftp : FileData
  mime : String
  fileName : String
deriving DecidableEq

/-- Model of `addBlob`'s preparation phase. -/
def addBlobPlan (env : IngestEnv) (now : Int) (blob : FileData) (name : String) :
    BlobPlan :=
  let originalName := if name ≠ "" then name
    else if blob.isFile then blob.name else ""
  let working := if strStartsWith blob.mime "image/" then
      maybeCompressImage env.img blob else blob
  let mime := if working.mime ≠ "" then working.mime
    else if blob.mime ≠ "" then blob.mime else "application/octet-stream"
  let fileName := if originalName ≠ "" then originalName
    else if strStartsWith mime "image/" then "image." ++ mimeSub mime else "file"
  let ftp := if working.isFile then working
    else {working with
            name := fileName
            mime := mime
            lastModified := now
            isFile := true}
  {ftp := ftp, mime := mime, fileName := fileName}

/-- Model of `blobToDataUrl` via `FileReader.readAsDataURL`. -/
def blobToDataUrl (f : FileData) : String :=
  "data:" ++ (if f.mime = "" then "application/octet-stream" else f.mime) ++
    ";base64," ++ b64encode f.bytes

/-- In-place mutation of the history item with a given id (ids are
unique, so the map touches one element). -/
def updateById (items : List Item) (i : Nat) (f : Item → Item) : List Item :=
  items.map (fun it => if it.id = i then f it else it)

/-- Synchronous phase of `addBlob` (lines 746-783): cache the payload,
create the item with `pending = true`, insert at the head, persist. -/
def addBlobSync (env : IngestEnv) (now : Int) (st : HubState) (blob : FileData)
    (name kindHint : String) : HubState :=
  let p := addBlobPlan env now blob name
  let id := st.uidNext
  let kind := if strStartsWith p.mime "image/" then "image" else kindHint
  let item : Item := {id := id
                      blobId := some id
                      kind := kind
                      createdAt := now
                      name := p.fileName
                      mime := p.mime
                      size := p.ftp.size
                      pending := true}
  persistMetadata
    {st with cache := id :: st.cache, items := item :: st.items, uidNext := id + 1}

/-- Resolution phase of `addBlob` (lines 785-805): on a successful
`blob.put` clear `pending` and persist; on failure set `error` and
attempt the data-URL fallback. -/
def addBlobResolve (env : IngestEnv) (now : Int) (st : HubState) (id : Nat)
    (p : BlobPlan) : HubState :=
  if env.putOk id then
    let newRec : BlobRecord :=
      {id := id
       bytes := p.ftp.bytes
       mime := if p.ftp.mime ≠ "" then p.ftp.mime else "application/octet-stream"
       name := p.ftp.name
       size := p.ftp.size
       lastModified := p.ftp.lastModified
       savedAt := now}
    persistMetadata
      {st with
         store := putRecord st.store newRec
         items := updateById st.items id (fun it => {it with pending := false})}
  else if env.fallbackOk id then
    persistMetadata
      {st with items := updateById st.items id (fun it =>
        {it with
           pending := false
           error := "persist_failed"
           dataUrl := blobToDataUrl p.ftp})}
  else
    {st with items := updateById st.items id (fun it =>
      {it with pending := false, error := "persist_failed"})}

/-- Model of `addBlob({blob, name, kindHint})`, run to completion. -/
def addBlob (env : IngestEnv) (now : Int) (st : HubState) (blob : FileData)
    (name kindHint : String) : HubState :=
  addBlobResolve env now (addBlobSync env now st blob name kindHint) st.uidNext
    (addBlobPlan env now blob name)

/-- First element matching a predicate removed (model of
`findIndex` + `splice(idx, 1)`). -/
def removeFirstBy : List Item → (Item → Bool) → List Item
  | [], _ => []
  | x :: xs, p => if p x then xs else x :: removeFirstBy xs p

/-- Model of `removeItem(id)` (lines 702-717). -/
def removeItem (st : HubState) (rid : Nat) : HubState :=
  match st.items.find? (fun it => it.id = rid) with
  | none => st
  | some it =>
    let items := removeFirstBy st.items (fun x => x.id = rid)
    let st1 : HubState :=
      match it.blobId with
      | some b =>
        if b ∈ st.cache then
          {st with
             items := items
             cache := st.cache.erase b
             store := deleteRecord st.store b}
        else {st with items := items}
      | none => {st with items := items}
    persistMetadata st1

/-- Model of `clearAll()` (lines 719-730). -/
def clearAll (st : HubState) : HubState :=
  persistMetadata {st with cache := [], items := [], store := []}

/-! ## Load and legacy migration (lines 633-691) -/

/-- One legacy entry mapped by the v5 migration loop; `none` when the
entry is skipped (v5 `file` items are dropped). -/
def migrateOne (now : Int) (uid : Nat) (it : LegacyItem) : Option Item :=
  if it.kind = "text" then
    some {id := uid
          kind := "text"
          createdAt := if it.createdAt = 0 then now else it.createdAt
          text := it.text
          html := it.html}
  else if it.kind = "image" then
    some {id := uid
          kind := "image"
          createdAt := if it.createdAt = 0 then now else it.createdAt
          name := if it.name ≠ "" then it.name else "image"
          mime := it.mime
          size := it.size
          dataUrl := if it.dataUrlPersisted ≠ "" then it.dataUrlPersisted
            else it.dataUrl}
  else none

/-- Legacy migration over the whole v5 list, threading the fresh-id
counter (a fresh `uid()` per migrated item). -/
def migrateLegacy (now : Int) : List LegacyItem → Nat → List Item × Nat
  | [], u => ([], u)
  | it :: rest, u =>
    match migrateOne now u it with
    | some x =>
      let r := migrateLegacy now rest (u + 1)
      (x :: r.1, r.2)
    | none => migrateLegacy now rest u

/-- Model of `restoreBlobs(items)` (lines 633-649): for each item with a
blob id not already cached, ask the worker for the record; when the
round trip succeeds and the record exists, cache it and fill in missing
`mime`/`size` from the response.  `reachable` is false when
`runtimeSend` itself rejects (worker unreachable). -/
def restoreBlobs (reachable : Bool) (store : List BlobRecord) :
    List Item → List Nat → List Item × List Nat
  | [], cache => ([], cache)
  | it :: rest, cache =>
    match it.blobId with
    | none =>
      let r := restoreBlobs reachable store rest cache
      (it :: r.1, r.2)
    | some b =>
      if b ∈ cache then
        let r := restoreBlobs reachable store rest cache
        (it :: r.1, r.2)
      else if reachable then
        match lookupRecord store b with
        | some rc =>
          let it' := {it with
            mime := if it.mime = "" then respMime rc else it.mime,
            size := if it.size = 0 then rc.size else it.size}
          let r := restoreBlobs reachable store rest (b :: cache)
          (it' :: r.1, r.2)
        | none =>
          let r := restoreBlobs reachable store rest cache
          (it :: r.1, r.2)
      else
        let r := restoreBlobs reachable store rest cache
        (it :: r.1, r.2)

/-- Model of `load()` (lines 651-691), producing the state of a fresh
session: read `clip_hub_v6_state`; when it is empty and the legacy
record is non-empty, run the one-time migration and persist it; then
restore blobs into the (empty) session cache.  `uidStart` is where the
fresh-id counter of the new session begins. -/
def load (reachable : Bool) (now : Int) (v6 : Option (List Item))
    (v5 : List LegacyItem) (store : List BlobRecord) (uidStart : Nat) : HubState :=
  let items0 := v6.getD []
  if items0.isEmpty ∧ ¬ v5.isEmpty then
    let m := migrateLegacy now v5 uidStart
    let r := restoreBlobs reachable store m.1 []
    {items := r.1, cache := r.2, store := store,
      v6 := some (m.1.map stripTransient), v5 := v5, uidNext := m.2}
  else
    let r := restoreBlobs reachable store items0 []
    {items := r.1, cache := r.2, store := store, v6 := v6, v5 := v5,
      uidNext := uidStart}

/-! ## Ingest pipeline (lines 822-909) -/

/-- A normalized ingest candidate (text or file). -/
inductive Candidate
  | text (plain html : String)
  | file (f : FileData)
deriving DecidableEq

/-- Per-candidate fingerprint fragment (lines 837-845). -/
def sigPart : Candidate → String
  | .file f => "F:" ++ f.mime ++ "|" ++ toString f.size ++ "|" ++ f.name
  | .text p h =>
    "T:" ++ hash32 (takeChars 256 p) ++ ":" ++ hash32 (takeChars 256 h) ++ ":" ++
      toString p.length ++ ":" ++ toString h.length

/-- Whole-batch signature `hash32(sigParts.join('||'))`. -/
def computeSig (cs : List Candidate) : String :=
  hash32 (String.intercalate "||" (cs.map sigPart))

/-- Processing of one candidate inside the accepted-batch loop
(lines 855-868). -/
def processCandidate (env : IngestEnv) (now : Int) (st : HubState)
    (c : Candidate) : HubState :=
  match c with
  | .file f => addBlob env now st f f.name "file"
  | .text p h => if p = "" ∧ h = "" then st else addText st now p h

/-- Model of `ingestCandidates(candidates, sourceLabel)`
(lines 833-872). -/
def ingestCandidates (env : IngestEnv) (st : HubState) (now : Int)
    (cs : List Candidate) : HubState :=
  let sig := computeSig cs
  if sig = st.lastSig ∧ now - st.lastAt < ingestDedupWindowMs then st
  else
    List.foldl (processCandidate env now)
      {st with lastSig := sig, lastAt := now} cs

/-- One `DataTransferItem` of a paste event: a file entry (whose
`getAsFile()` may return null) or a string entry with its MIME type. -/
inductive DTEntry
  | fileEntry (f : Option FileData)
  | strEntry (ty : String) (content : String)
deriving DecidableEq

/-- Whether an entry has `kind === 'string'`. -/
def DTEntry.isStr : DTEntry → Bool
  | .strEntry _ _ => true
  | _ => false

/-- Loop state of `ingestFromPasteEvent`: emitted candidates plus the
pending coalesced text (`pendingText`). -/
structure PasteAcc where
  cs : List Candidate := []
  plain : String := ""
  html : String := ""
deriving DecidableEq

/-- The candidate emitted when the pending text is flushed (nothing
when both parts are empty). -/
def flushTail (p h : String) : List Candidate :=
  if p ≠ "" ∨ h ≠ "" then [Candidate.text p h] else []

/-- Model of the flush in lines 887-890 and 906. -/
def flushPending (acc : PasteAcc) : List Candidate :=
  acc.cs ++ flushTail acc.plain acc.html

/-- One iteration of the normalization loop (lines 885-904). -/
def pasteStep (acc : PasteAcc) : DTEntry → PasteAcc
  | .fileEntry f =>
    let cs := flushPending acc
    let cs := match f with
      | some f => cs ++ [Candidate.file f]
      | none => cs
    {cs := cs, plain := "", html := ""}
  | .strEntry ty content =>
    if ty = "text/plain" then
      {acc with plain := if content ≠ "" then content else acc.plain}
    else if ty = "text/html" then
      {acc with html := if content ≠ "" then content else acc.html}
    else if ty = "text/uri-list" then
      let url := jsTrim content
      if url ≠ "" then
        {acc with plain := if acc.plain ≠ "" then acc.plain ++ "\n" ++ url
          else url}
      else acc
    else acc

/-- Normalization of an ordered paste-event entry sequence into
candidates (lines 880-906). -/
def normalizePaste (es : List DTEntry) : List Candidate :=
  flushPending (es.foldl pasteStep {})

/-- Model of `ingestFromPasteEvent(e)` (lines 874-909); an event with
no entries returns before reaching the pipeline. -/
def ingestFromPasteEvent (env : IngestEnv) (st : HubState) (now : Int)
    (es : List DTEntry) : HubState :=
  if es.isEmpty then st else ingestCandidates env st now (normalizePaste es)

/-! ## Worker message handling (part_000, lines 86-112) -/

/-- Payload of a `blob.put` request. -/
structure PutPayload where
  id : Nat := 0
  buffer : List Nat := []
  mime : String := ""
  name : String := ""
  size : Nat := 0
  lastModified : Int := 0
deriving DecidableEq

/-- Payload carrying only an id (`blob.get` / `blob.delete`). -/
structure IdPayload where
  id : Nat := 0
deriving DecidableEq

/-- A request payload as delivered: a full put payload, an id payload,
or an empty object. -/
inductive WPayload
  | putP (p : PutPayload)
  | idP (p : IdPayload)
  | emptyP
deriving DecidableEq

/-- A message delivered to `chrome.runtime.onMessage`: either not an
object at all, or an object with a `type` tag and optional payload. -/
inductive WMsg
  | notObject
  | typed (ty : String) (payload : Option WPayload)
deriving DecidableEq

/-- A response sent through `sendResponse`. -/
inductive WResp
  | okEmpty
  | okBlob (buffer : List Nat) (mime name : String) (size : Nat)
      (lastModified : Int)
  | okPing (ts : Int)
  | fail (error : String)
deriving DecidableEq

/-- Worker-side failure injection: `some e` makes the IndexedDB
transaction of the current request throw `e`. -/
structure WEnv where
  idbFail : Option String := none

/-- The id extracted by destructuring `{id}` from the payload; throws
(as the source would) when the payload is `undefined` or has no usable
key. -/
def wGetId : Option WPayload → Except String Nat
  | some (.putP p) => .ok p.id
  | some (.idP p) => .ok p.id
  | some .emptyP => .error "invalid_key"
  | none => .error "cannot_destructure"

/-- Model of `putBlob(payload)`. -/
def putBlobW (env : WEnv) (now : Int) (st : List BlobRecord) :
    Option WPayload → Except String (WResp × List BlobRecord)
  | some (.putP p) =>
    match env.idbFail with
    | some e => .error e
    | none =>
      let r : BlobRecord :=
        {id := p.id
         bytes := p.buffer
         mime := p.mime
         name := p.name
         size := p.size
         lastModified := p.lastModified
         savedAt := now}
      .ok (.okEmpty, putRecord st r)
  | _ => .error "cannot_destructure"

/-- Model of `getBlob(payload)`. -/
def getBlobW (env : WEnv) (st : List BlobRecord) (payload : Option WPayload) :
    Except String (WResp × List BlobRecord) := do
  let i ← wGetId payload
  match env.idbFail with
  | some e => .error e
  | none =>
    match lookupRecord st i with
    | none => .ok (.fail "not_found", st)
    | some r => .ok (.okBlob r.bytes (respMime r) r.name r.size r.lastModified, st)

/-- Model of `deleteBlob(payload)`. -/
def deleteBlobW (env : WEnv) (st : List BlobRecord) (payload : Option WPayload) :
    Except String (WResp × List BlobRecord) := do
  let i ← wGetId payload
  match env.idbFail with
  | some e => .error e
  | none => .ok (.okEmpty, deleteRecord st i)

/-- Model of worker `clearAll()`. -/
def clearAllW (env : WEnv) (_st : List BlobRecord) :
    Except String (WResp × List BlobRecord) :=
  match env.idbFail with
  | some e => .error e
  | none => .ok (.okEmpty, ([] : List BlobRecord))

/-- Model of the `chrome.runtime.onMessage` listener: dispatch on the
request tag, catching any thrown error into `{ok:false, error}` so a
response is always produced. -/
def handleMessage (env : WEnv) (now : Int) (st : List BlobRecord) (msg : WMsg) :
    WResp × List BlobRecord :=
  match msg with
  | .notObject => (.fail "bad_request", st)
  | .typed ty payload =>
    let r : Except String (WResp × List BlobRecord) :=
      if ty = "blob.put" then putBlobW env now st payload
      else if ty = "blob.get" then getBlobW env st payload
      else if ty = "blob.delete" then deleteBlobW env st payload
      else if ty = "blob.clear" then clearAllW env st
      else if ty = "ping" then .ok (.okPing now, st)
      else .ok (.fail "unknown_type", st)
    match r with
    | .ok x => x
    | .error e => (.fail e, st)

/-! ## Helper lemmas -/

lemma trimEnd_eq_empty_of_ws (s : String) (h : ∀ c ∈ s.data, isJsWs c) :
    trimEnd s = "" := by
  unfold trimEnd
  have : s.data.reverse.dropWhile isJsWs = [] := by
    rw [List.dropWhile_eq_nil_iff]
    intro x hx
    exact h x (List.mem_reverse.mp hx)
  rw [this]
  rfl

lemma blobToDataUrl_ne_empty (f : FileData) : blobToDataUrl f ≠ "" := by
  unfold blobToDataUrl
  intro h
  have hlen := congrArg String.length h
  simp [String.length_append] at hlen
  exact (by decide : "data:".length ≠ 0) hlen.1.1.1

lemma updateById_of_ne (xs : List Item) (i : Nat) (f : Item → Item)
    (h : ∀ j ∈ xs, j.id ≠ i) : updateById xs i f = xs := by
  induction xs with
  | nil => rfl
  | cons x xs ih =>
    unfold updateById
    simp only [List.map_cons]
    rw [if_neg (h x (List.mem_cons_self x xs))]
    have := ih (fun j hj => h j (List.mem_cons_of_mem x hj))
    unfold updateById at this
    rw [this]

lemma updateById_cons_fresh (x : Item) (xs : List Item) (i : Nat)
    (f : Item → Item) (hx : x.id = i) (hxs : ∀ j ∈ xs, j.id ≠ i) :
    updateById (x :: xs) i f = f x :: xs := by
  unfold updateById
  simp only [List.map_cons]
  rw [if_pos hx]
  have := updateById_of_ne xs i f hxs
  unfold updateById at this
  rw [this]

lemma lookupRecord_putRecord_self (s : List BlobRecord) (r : BlobRecord) :
    lookupRecord (putRecord s r) r.id = some r := by
  simp [lookupRecord, putRecord, List.find?_cons]

lemma lookupRecord_deleteRecord_self (s : List BlobRecord) (i : Nat) :
    lookupRecord (deleteRecord s i) i = none := by
  induction s with
  | nil => rfl
  | cons r s ih =>
    by_cases h : r.id = i
    · have hstep : deleteRecord (r :: s) i = deleteRecord s i := by
        simp [deleteRecord, h]
      rw [hstep]
      exact ih
    · have hstep : deleteRecord (r :: s) i = r :: deleteRecord s i := by
        simp [deleteRecord, h]
      rw [hstep]
      show List.find? (fun x => x.id = i) (r :: deleteRecord s i) = none
      rw [List.find?_cons_of_neg _ (by simpa using h)]
      exact ih

lemma find?_id_unique (xs : List Item) (it : Item) (rid : Nat)
    (hm : it ∈ xs) (hi : it.id = rid) (hn : (xs.map Item.id).Nodup) :
    xs.find? (fun x => x.id = rid) = some it := by
  induction xs with
  | nil => cases hm
  | cons y ys ih =>
    rw [List.map_cons, List.nodup_cons] at hn
    rcases List.mem_cons.mp hm with hy | hys
    · subst hy
      exact List.find?_cons_of_pos ys (by simpa using hi)
    · have hyid : y.id ≠ rid := by
        intro hcontra
        have : it.id ∈ ys.map Item.id := List.mem_map_of_mem Item.id hys
        rw [hi, ← hcontra] at this
        exact hn.1 this
      rw [List.find?_cons_of_neg ys (by simpa using hyid)]
      exact ih hys hn.2

lemma removeFirstBy_id_ne (xs : List Item) (rid : Nat)
    (hn : (xs.map Item.id).Nodup) :
    ∀ j ∈ removeFirstBy xs (fun x => x.id = rid), j.id ≠ rid := by
  induction xs with
  | nil => intro j hj; cases hj
  | cons x xs ih =>
    intro j hj
    rw [List.map_cons, List.nodup_cons] at hn
    by_cases hx : x.id = rid
    · rw [removeFirstBy, if_pos (by simpa using hx)] at hj
      intro hjr
      have : j.id ∈ xs.map Item.id := List.mem_map_of_mem Item.id hj
      rw [hjr, ← hx] at this
      exact hn.1 this
    · rw [removeFirstBy, if_neg (by simpa using hx)] at hj
      rcases List.mem_cons.mp hj with hjx | hjs
      · subst hjx; exact hx
      · exact ih hn.2 j hjs

lemma migrateOne_id (now : Int) (u : Nat) (it : LegacyItem) (x : Item)
    (h : migrateOne now u it = some x) : x.id = u := by
  unfold migrateOne at h
  split at h
  · cases h; rfl
  · split at h
    · cases h; rfl
    · cases h

lemma migrateLegacy_id_ge (now : Int) :
    ∀ (ls : List LegacyItem) (u : Nat), ∀ j ∈ (migrateLegacy now ls u).1, u ≤ j.id := by
  intro ls
  induction ls with
  | nil => intro u j hj; cases hj
  | cons it rest ih =>
    intro u j hj
    rw [migrateLegacy] at hj
    rcases hone : migrateOne now u it with _ | x
    · rw [hone] at hj
      exact ih u j hj
    · rw [hone] at hj
      rcases List.mem_cons.mp hj with hjx | hjs
      · have := migrateOne_id now u it x hone
        subst hjx
        omega
      · have := ih (u + 1) j hjs
        omega

lemma restoreBlobs_map_id (reachable : Bool) (store : List BlobRecord) :
    ∀ (items : List Item) (cache : List Nat),
      (restoreBlobs reachable store items cache).1.map Item.id =
        items.map Item.id := by
  intro items
  induction items with
  | nil => intro cache; rfl
  | cons it rest ih =>
    intro cache
    rcases hb : it.blobId with _ | b
    · simp [restoreBlobs, hb, ih]
    · by_cases hc : b ∈ cache
      · simp [restoreBlobs, hb, hc, ih]
      · cases reachable with
        | false => simp [restoreBlobs, hb, hc, ih]
        | true =>
          rcases hrec : lookupRecord store b with _ | rc
          · simp [restoreBlobs, hb, hc, hrec, ih]
          · simp [restoreBlobs, hb, hc, hrec, ih]

lemma restoreBlobs_no_patch (store : List BlobRecord) :
    ∀ (items : List Item) (cache : List Nat),
      (∀ it ∈ items, ∀ b, it.blobId = some b →
        ∀ r, lookupRecord store b = some r →
          it.mime ≠ "" ∧ (it.size ≠ 0 ∨ r.size = 0)) →
      (restoreBlobs true store items cache).1 = items := by
  intro items
  induction items with
  | nil => intro cache _; rfl
  | cons it rest ih =>
    intro cache h
    have hrest := fun j hj => h j (List.mem_cons_of_mem it hj)
    rcases hb : it.blobId with _ | b
    · simp [restoreBlobs, hb, ih _ hrest]
    · by_cases hc : b ∈ cache
      · simp [restoreBlobs, hb, hc, ih _ hrest]
      · rcases hrec : lookupRecord store b with _ | rc
        · simp [restoreBlobs, hb, hc, hrec, ih _ hrest]
        · have hit := h it (List.mem_cons_self it rest) b hb rc hrec
          have hm : (if it.mime = "" then respMime rc else it.mime) = it.mime :=
            if_neg hit.1
          have hs : (if it.size = 0 then rc.size else it.size) = it.size := by
            rcases hit.2 with h0 | h0
            · exact if_neg h0
            · by_cases hz : it.size = 0
              · rw [if_pos hz, h0, hz]
              · exact if_neg hz
          show (restoreBlobs true store (it :: rest) cache).1 = it :: rest
          rw [restoreBlobs]
          simp only [hb, if_neg hc, if_pos rfl, hrec]
          rw [hm, hs, ih _ hrest]
          simp only [if_true]
          rw [← hb]

lemma pasteStep_accum (acc : PasteAcc) (e : DTEntry) :
    pasteStep acc e =
      ⟨acc.cs ++ (pasteStep ⟨[], acc.plain, acc.html⟩ e).cs,
       (pasteStep ⟨[], acc.plain, acc.html⟩ e).plain,
       (pasteStep ⟨[], acc.plain, acc.html⟩ e).html⟩ := by
  obtain ⟨cs, p, h⟩ := acc
  cases e with
  | fileEntry f => cases f <;> simp [pasteStep, flushPending, List.append_assoc]
  | strEntry ty content =>
    simp only [pasteStep]
    split_ifs <;> simp

lemma foldl_pasteStep_accum :
    ∀ (xs : List DTEntry) (acc : PasteAcc),
      List.foldl pasteStep acc xs =
        ⟨acc.cs ++ (List.foldl pasteStep ⟨[], acc.plain, acc.html⟩ xs).cs,
         (List.foldl pasteStep ⟨[], acc.plain, acc.html⟩ xs).plain,
         (List.foldl pasteStep ⟨[], acc.plain, acc.html⟩ xs).html⟩ := by
  intro xs
  induction xs with
  | nil => intro acc; simp
  | cons e rest ih =>
    intro acc
    rw [List.foldl_cons, List.foldl_cons]
    rw [pasteStep_accum acc e]
    rw [ih ⟨acc.cs ++ (pasteStep ⟨[], acc.plain, acc.html⟩ e).cs,
      (pasteStep ⟨[], acc.plain, acc.html⟩ e).plain,
      (pasteStep ⟨[], acc.plain, acc.html⟩ e).html⟩]
    rw [ih (pasteStep ⟨[], acc.plain, acc.html⟩ e)]
    simp [List.append_assoc]

lemma normalizePaste_append_file (xs ys : List DTEntry) (f : FileData) :
    normalizePaste (xs ++ DTEntry.fileEntry (some f) :: ys) =
      normalizePaste xs ++ Candidate.file f :: normalizePaste ys := by
  unfold normalizePaste
  rw [List.foldl_append, List.foldl_cons]
  have hstep : pasteStep (List.foldl pasteStep {} xs) (DTEntry.fileEntry (some f)) =
      ⟨flushPending (List.foldl pasteStep {} xs) ++ [Candidate.file f], "", ""⟩ := rfl
  rw [hstep]
  rw [foldl_pasteStep_accum ys
    ⟨flushPending (List.foldl pasteStep {} xs) ++ [Candidate.file f], "", ""⟩]
  simp [flushPending, List.append_assoc]

lemma pasteStep_str_cs (acc : PasteAcc) (ty content : String) :
    (pasteStep acc (DTEntry.strEntry ty content)).cs = acc.cs := by
  simp only [pasteStep]
  split_ifs <;> rfl

lemma foldl_pasteStep_nofile :
    ∀ (xs : List DTEntry) (acc : PasteAcc), (∀ e ∈ xs, e.isStr = true) →
      (List.foldl pasteStep acc xs).cs = acc.cs := by
  intro xs
  induction xs with
  | nil => intro acc _; rfl
  | cons e rest ih =>
    intro acc h
    rw [List.foldl_cons]
    rw [ih _ (fun x hx => h x (List.mem_cons_of_mem e hx))]
    have he := h e (List.mem_cons_self e rest)
    cases e with
    | fileEntry f => simp [DTEntry.isStr] at he
    | strEntry ty content => exact pasteStep_str_cs acc ty content

lemma addText_items_of_ne (st : HubState) (now : Int) (p h : String)
    (hn : ¬(trimEnd p = "" ∧ trimEnd h = "")) :
    (addText st now p h).items =
      {id := st.uidNext, kind := "text", createdAt := now,
       text := trimEnd p, html := trimEnd h} :: st.items := by
  simp only [addText]
  rw [if_neg hn]
  rfl

lemma addText_of_eq (st : HubState) (now : Int) (p h : String)
    (he : trimEnd p = "" ∧ trimEnd h = "") : addText st now p h = st := by
  simp only [addText]
  rw [if_pos he]

/-! ## Concrete sample values used by witnesses and counterexamples -/

/-- Image-transcoder environment where decode and context succeed and
the encoder yields nothing. -/
def sampleImgEnv : ImgEnv :=
  {decodeOk := true, ctxOk := true, encode := fun _ _ => none}

/-- Ingest environment where every asynchronous operation succeeds. -/
def sampleIngestEnv : IngestEnv :=
  {img := sampleImgEnv, putOk := fun _ => true, fallbackOk := fun _ => true}

/-- A one-candidate text batch. -/
def sampleBatch : List Candidate := [Candidate.text "hi" ""]

/-- A state whose recorded signature is exactly `sampleBatch`'s. -/
def dupState : HubState := {lastSig := computeSig sampleBatch, lastAt := 0}

/-! ## C1 -/

/-- C1: a batch whose signature equals the previously accepted one and
arrives within the 900 ms dedup window leaves the state (items,
signature, timestamp) unchanged; otherwise the batch is processed by
folding `processCandidate` over the updated state, and the result does
not depend on the previously recorded signature/timestamp. -/
theorem C1_ingest_dedup (env : IngestEnv) (st : HubState) (now : Int)
    (cs : List Candidate) :
    (computeSig cs = st.lastSig ∧ now - st.lastAt < ingestDedupWindowMs →
      ingestCandidates env st now cs = st) ∧
    (¬(computeSig cs = st.lastSig ∧ now - st.lastAt < ingestDedupWindowMs) →
      ingestCandidates env st now cs =
        List.foldl (processCandidate env now)
          {st with lastSig := computeSig cs, lastAt := now} cs ∧
      ∀ sig0 at0,
        ¬(computeSig cs = sig0 ∧ now - at0 < ingestDedupWindowMs) →
        ingestCandidates env {st with lastSig := sig0, lastAt := at0} now cs =
          ingestCandidates env st now cs) := by
  constructor
  · intro hdup
    unfold ingestCandidates
    rw [if_pos hdup]
  · intro hnd
    constructor
    · unfold ingestCandidates
      rw [if_neg hnd]
    · intro sig0 at0 hnd0
      unfold ingestCandidates
      rw [if_neg hnd0, if_neg hnd]

/-- C1 witness: the dedup branch fires on a concrete duplicate batch,
and a batch outside the window is processed from the updated state. -/
theorem C1_witness :
    ingestCandidates sampleIngestEnv dupState 100 sampleBatch = dupState ∧
    ingestCandidates sampleIngestEnv ({} : HubState) 100 sampleBatch =
      List.foldl (processCandidate sampleIngestEnv 100)
        {({} : HubState) with lastSig := computeSig sampleBatch, lastAt := 100}
        sampleBatch := by
  constructor
  · exact (C1_ingest_dedup sampleIngestEnv dupState 100 sampleBatch).1
      ⟨rfl, by decide⟩
  · exact ((C1_ingest_dedup sampleIngestEnv {} 100 sampleBatch).2
      (by decide)).1

/-! ## C3 -/

/-- A legacy v5 text entry used in counterexamples. -/
def cexLegacy : LegacyItem := {kind := "text", text := "hi", createdAt := 5}

/-- A populated state whose storage still holds a non-empty legacy
record. -/
def cexState3 : HubState :=
  {items := [{id := 0, kind := "text", text := "old"}]
   cache := [4]
   store := [{id := 4}]
   v6 := some [{id := 0, kind := "text", text := "old"}]
   v5 := [cexLegacy]
   uidNext := 1}

/-- C3 counterexample: after `clearAll` the item list and blob store are
empty, yet a subsequent `load` does NOT return an empty list, because
the untouched legacy record re-triggers the v5 migration — contradicting
the claim's "regardless of what other storage keys, including the
legacy-format record, still hold". -/
theorem C3_counterexample :
    (clearAll cexState3).items = [] ∧ (clearAll cexState3).store = [] ∧
    (load true 99 (clearAll cexState3).v6 (clearAll cexState3).v5
      (clearAll cexState3).store 1).items ≠ [] := by decide

/-- C3 (amended): clearing empties the in-memory list, the session
cache and the blob store; and provided the legacy-format record is
empty, a subsequent load returns an empty item list.  (If a non-empty
legacy record remains, load re-runs the one-time migration and returns
the migrated items instead.) -/
theorem C3_clear_all (st : HubState) (reachable : Bool) (now : Int) (u : Nat)
    (hleg : st.v5 = []) :
    (clearAll st).items = [] ∧ (clearAll st).cache = [] ∧
    (clearAll st).store = [] ∧
    (load reachable now (clearAll st).v6 (clearAll st).v5 (clearAll st).store
      u).items = [] := by
  refine ⟨rfl, rfl, rfl, ?_⟩
  simp [clearAll, persistMetadata, load, hleg, restoreBlobs]

/-- C3 witness: amended claim applied at a concrete populated state
with no legacy record. -/
theorem C3_witness :
    (clearAll {cexState3 with v5 := []}).items = [] ∧
    (clearAll {cexState3 with v5 := []}).cache = [] ∧
    (clearAll {cexState3 with v5 := []}).store = [] ∧
    (load true 99 (clearAll {cexState3 with v5 := []}).v6
      (clearAll {cexState3 with v5 := []}).v5
      (clearAll {cexState3 with v5 := []}).store 1).items = [] :=
  C3_clear_all {cexState3 with v5 := []} true 99 1 rfl

/-! ## C6 -/

/-- C6 counterexample: the candidate's plain content `" "` is non-empty,
yet processing it creates no item (the source trims trailing whitespace
before the emptiness test), contradicting "exactly one HistoryItem". -/
theorem C6_counterexample :
    ¬(" " = "") ∧
    (processCandidate sampleIngestEnv 5 ({uidNext := 1} : HubState)
      (Candidate.text " " "")).items = [] := by
  constructor
  · decide
  · decide

/-- C6 (amended): a text candidate whose plain or html content is
non-empty after trailing-whitespace removal yields exactly one item of
kind `text`; a candidate with both parts empty after trailing-whitespace
removal yields zero items. -/
theorem C6_text_candidate (env : IngestEnv) (now : Int) (st : HubState)
    (p h : String) :
    (¬(trimEnd p = "" ∧ trimEnd h = "") →
      (processCandidate env now st (Candidate.text p h)).items =
        {id := st.uidNext, kind := "text", createdAt := now,
         text := trimEnd p, html := trimEnd h} :: st.items) ∧
    (trimEnd p = "" ∧ trimEnd h = "" →
      (processCandidate env now st (Candidate.text p h)).items = st.items) := by
  constructor
  · intro hn
    have hph : ¬(p = "" ∧ h = "") := by
      rintro ⟨hp, hh⟩
      exact hn ⟨by rw [hp]; rfl, by rw [hh]; rfl⟩
    show ((if p = "" ∧ h = "" then st else addText st now p h)).items = _
    rw [if_neg hph]
    exact addText_items_of_ne st now p h hn
  · intro he
    show ((if p = "" ∧ h = "" then st else addText st now p h)).items = _
    by_cases hph : p = "" ∧ h = ""
    · rw [if_pos hph]
    · rw [if_neg hph, addText_of_eq st now p h he]

/-- C6 witness: a concrete non-empty candidate commits one text item;
trailing-whitespace content commits none. -/
theorem C6_witness :
    (processCandidate sampleIngestEnv 9 ({uidNext := 2} : HubState)
      (Candidate.text "x" "")).items =
      [{id := 2, kind := "text", createdAt := 9, text := "x", html := ""}] ∧
    (processCandidate sampleIngestEnv 9 ({uidNext := 2} : HubState)
      (Candidate.text "  " " ")).items = [] := by
  constructor
  · have h1 := (C6_text_candidate sampleIngestEnv 9 {uidNext := 2} "x" "").1
      (by decide)
    simpa [show trimEnd "x" = "x" from by decide,
      show trimEnd "" = "" from rfl] using h1
  · exact (C6_text_candidate sampleIngestEnv 9 {uidNext := 2} "  " " ").2
      (by decide)

/-! ## C9 -/

/-- C9: the worker message handler always produces a response: unknown
request tags get `unknown_type`, non-object messages get `bad_request`,
a `blob.get` for an absent id gets `not_found`, and an error thrown
inside a handler is captured and returned as the response's error. -/
theorem C9_worker_responses (env : WEnv) (now : Int) (st : List BlobRecord) :
    (handleMessage env now st WMsg.notObject = (WResp.fail "bad_request", st)) ∧
    (∀ ty payload, ty ≠ "blob.put" → ty ≠ "blob.get" → ty ≠ "blob.delete" →
      ty ≠ "blob.clear" → ty ≠ "ping" →
      handleMessage env now st (WMsg.typed ty payload) =
        (WResp.fail "unknown_type", st)) ∧
    (∀ i, env.idbFail = none → lookupRecord st i = none →
      handleMessage env now st
        (WMsg.typed "blob.get" (some (WPayload.idP {id := i}))) =
        (WResp.fail "not_found", st)) ∧
    (∀ e p, env.idbFail = some e →
      handleMessage env now st
        (WMsg.typed "blob.put" (some (WPayload.putP p))) =
        (WResp.fail e, st)) ∧
    (∀ msg, ∃ r st', handleMessage env now st msg = (r, st')) := by
  refine ⟨rfl, ?_, ?_, ?_, ?_⟩
  · intro ty payload h1 h2 h3 h4 h5
    simp [handleMessage, h1, h2, h3, h4, h5]
  · intro i hfail hlook
    simp [handleMessage, getBlobW, wGetId, hfail, hlook, bind, Except.bind]
  · intro e p hfail
    simp [handleMessage, putBlobW, hfail]
  · intro msg
    exact ⟨(handleMessage env now st msg).1, (handleMessage env now st msg).2,
      rfl⟩

/-- C9 witness: the response shapes at concrete inputs. -/
theorem C9_witness :
    handleMessage {idbFail := none} 7 [] (WMsg.typed "nope" none) =
      (WResp.fail "unknown_type", []) ∧
    handleMessage {idbFail := none} 7 []
      (WMsg.typed "blob.get" (some (WPayload.idP {id := 3}))) =
      (WResp.fail "not_found", []) ∧
    handleMessage {idbFail := some "boom"} 7 []
      (WMsg.typed "blob.put" (some (WPayload.putP {}))) =
      (WResp.fail "boom", []) := by
  refine ⟨?_, ?_, ?_⟩
  · exact (C9_worker_responses {idbFail := none} 7 []).2.1 "nope" none
      (by decide) (by decide) (by decide) (by decide) (by decide)
  · exact (C9_worker_responses {idbFail := none} 7 []).2.2.1 3 rfl rfl
  · exact (C9_worker_responses {idbFail := some "boom"} 7 []).2.2.2.1 "boom" {}
      rfl

/-! ## C10 -/

/-- C10: a committed text candidate stores the plain and html inputs
with trailing whitespace removed, and a candidate whose parts are both
whitespace-only creates no item. -/
theorem C10_addText_trims (st : HubState) (now : Int) (p h : String) :
    (¬(trimEnd p = "" ∧ trimEnd h = "") →
      (addText st now p h).items =
        {id := st.uidNext, kind := "text", createdAt := now,
         text := trimEnd p, html := trimEnd h} :: st.items) ∧
    ((∀ c ∈ p.data, isJsWs c) → (∀ c ∈ h.data, isJsWs c) →
      (addText st now p h).items = st.items) := by
  constructor
  · exact addText_items_of_ne st now p h
  · intro hp hh
    rw [addText_of_eq st now p h
      ⟨trimEnd_eq_empty_of_ws p hp, trimEnd_eq_empty_of_ws h hh⟩]

/-- C10 witness: a concrete commit with trailing whitespace stripped
and a whitespace-only drop. -/
theorem C10_witness :
    (addText ({uidNext := 4} : HubState) 11 "a " "b\t").items =
      [{id := 4, kind := "text", createdAt := 11, text := "a", html := "b"}] ∧
    (addText ({uidNext := 4} : HubState) 11 " " "\t").items = [] := by
  constructor
  · have h1 := (C10_addText_trims {uidNext := 4} 11 "a " "b\t").1 (by decide)
    simpa [show trimEnd "a " = "a" from by decide,
      show trimEnd "b\t" = "b" from by decide] using h1
  · exact (C10_addText_trims {uidNext := 4} 11 " " "\t").2 (by decide) (by decide)

/-! ## C8 -/

/-- A helper fact: a text candidate with non-empty parts reduces to
`addText` inside the accepted-batch loop. -/
lemma processCandidate_text_ne (env : IngestEnv) (now : Int) (st : HubState)
    (p h : String) (hne : ¬(p = "" ∧ h = "")) :
    processCandidate env now st (Candidate.text p h) = addText st now p h := by
  simp [processCandidate, hne]

/-- The paste event of the spec's example scenario: one plain string
"hello" and one HTML string "<b>hello</b>". -/
def pasteHello : List DTEntry :=
  [DTEntry.strEntry "text/plain" "hello",
   DTEntry.strEntry "text/html" "<b>hello</b>"]

/-- C8: paste-event normalization flushes the pending coalesced text at
every file entry (and at end of input), appends a uri-list entry to the
plain body as an extra line, coalesces a run of string entries into at
most one text candidate, and on the example event (plain "hello", HTML
"<b>hello</b>") commits exactly one text item carrying both forms. -/
theorem C8_paste_event_normalization :
    (∀ (xs ys : List DTEntry) (f : FileData),
      normalizePaste (xs ++ DTEntry.fileEntry (some f) :: ys) =
        normalizePaste xs ++ Candidate.file f :: normalizePaste ys) ∧
    (∀ (acc : PasteAcc) (u : String), acc.plain ≠ "" → jsTrim u ≠ "" →
      pasteStep acc (DTEntry.strEntry "text/uri-list" u) =
        {acc with plain := acc.plain ++ "\n" ++ jsTrim u}) ∧
    (∀ xs : List DTEntry, (∀ e ∈ xs, e.isStr = true) →
      (normalizePaste xs).length ≤ 1 ∧
      ∀ c ∈ normalizePaste xs, ∃ p h, c = Candidate.text p h) ∧
    (∀ (env : IngestEnv) (st : HubState) (now : Int),
      ¬(computeSig (normalizePaste pasteHello) = st.lastSig ∧
        now - st.lastAt < ingestDedupWindowMs) →
      (ingestFromPasteEvent env st now pasteHello).items =
        {id := st.uidNext, kind := "text", createdAt := now,
         text := "hello", html := "<b>hello</b>"} :: st.items) := by
  refine ⟨normalizePaste_append_file, ?_, ?_, ?_⟩
  · intro acc u hp hu
    simp [pasteStep, hu, hp]
  · intro xs hstr
    have hcs : (List.foldl pasteStep {} xs).cs = [] :=
      foldl_pasteStep_nofile xs {} hstr
    unfold normalizePaste flushPending
    rw [hcs]
    simp only [List.nil_append]
    constructor
    · unfold flushTail
      split_ifs <;> simp
    · intro c hc
      unfold flushTail at hc
      split_ifs at hc
      · rw [List.mem_singleton] at hc
        exact ⟨_, _, hc⟩
      · cases hc
  · intro env st now hnd
    have hN : normalizePaste pasteHello =
        [Candidate.text "hello" "<b>hello</b>"] := by decide
    have ht1 : trimEnd "hello" = "hello" := by decide
    have ht2 : trimEnd "<b>hello</b>" = "<b>hello</b>" := by decide
    rw [hN] at hnd
    unfold ingestFromPasteEvent
    rw [if_neg (by decide : ¬(pasteHello.isEmpty = true)), hN]
    unfold ingestCandidates
    rw [if_neg hnd, List.foldl_cons, List.foldl_nil,
      processCandidate_text_ne env now _ "hello" "<b>hello</b>" (by decide),
      addText_items_of_ne _ now "hello" "<b>hello</b>" (by decide)]
    rw [ht1, ht2]

/-- C8 witness: the example scenario and the file-flush property at
concrete inputs. -/
theorem C8_witness :
    (ingestFromPasteEvent sampleIngestEnv ({uidNext := 6} : HubState) 42
      pasteHello).items =
      [{id := 6, kind := "text", createdAt := 42,
        text := "hello", html := "<b>hello</b>"}] ∧
    normalizePaste (pasteHello ++ DTEntry.fileEntry
        (some {mime := "text/plain", name := "f"}) :: pasteHello) =
      normalizePaste pasteHello ++
        Candidate.file {mime := "text/plain", name := "f"} ::
          normalizePaste pasteHello := by
  constructor
  · exact (C8_paste_event_normalization).2.2.2 sampleIngestEnv {uidNext := 6} 42
      (by decide)
  · exact (C8_paste_event_normalization).1 pasteHello pasteHello
      {mime := "text/plain", name := "f"}

/-! ## C5 -/

/-- C5 counterexample: persisting an empty item list and reloading it
with the Blob Store reachable does not reconstruct the (empty) list when
a non-empty legacy record is present — the reload returns the migrated
legacy items instead. -/
theorem C5_counterexample :
    (persistMetadata ({items := [], v5 := [cexLegacy]} : HubState)).v6 =
      some (([] : List Item).map stripTransient) ∧
    (load true 99
      (persistMetadata ({items := [], v5 := [cexLegacy]} : HubState)).v6
      [cexLegacy] [] 0).items ≠ ([] : List Item).map stripTransient := by
  constructor
  · rfl
  · decide

/-- C5 (amended): persisting the metadata of an item list and reloading
it with the Blob Store reachable reconstructs the list with the
transient fields `pending`, `error`, `expanded` stripped, provided the
list is non-empty or the legacy record is empty (otherwise the legacy
migration replaces the list), and provided every item whose blob id
resolves in the store carries a non-empty mime and a non-zero size
(otherwise load fills those fields in from the blob record). -/
theorem C5_metadata_roundtrip (its : List Item) (v5 : List LegacyItem)
    (store : List BlobRecord) (now : Int) (u : Nat)
    (h1 : its ≠ [] ∨ v5 = [])
    (h2 : ∀ it ∈ its, ∀ b, it.blobId = some b →
      ∀ r, lookupRecord store b = some r →
        it.mime ≠ "" ∧ (it.size ≠ 0 ∨ r.size = 0)) :
    (load true now (some (its.map stripTransient)) v5 store u).items =
      its.map stripTransient := by
  have hcond : ¬(((its.map stripTransient).isEmpty = true) ∧
      ¬(v5.isEmpty = true)) := by
    rintro ⟨hc, hv⟩
    rcases h1 with h | h
    · exact h (List.map_eq_nil_iff.mp (List.isEmpty_iff.mp hc))
    · exact hv (by rw [h]; rfl)
  unfold load
  simp only [Option.getD_some]
  rw [if_neg hcond]
  show (restoreBlobs true store (its.map stripTransient) []).1 =
    its.map stripTransient
  apply restoreBlobs_no_patch
  intro it' hit' b hb r hr
  rcases List.mem_map.mp hit' with ⟨it, hmem, rfl⟩
  exact h2 it hmem b hb r hr

/-- A concrete item with transient flags set, used in the C5 witness. -/
def witItem5 : Item :=
  {id := 1, kind := "text", text := "t", pending := true, expanded := true}

/-- C5 witness: a round trip at a concrete one-item list with transient
flags set. -/
theorem C5_witness :
    (load true 5 (some ([witItem5].map stripTransient)) [] [] 9).items =
      [witItem5].map stripTransient :=
  C5_metadata_roundtrip [witItem5] [] [] 5 9 (Or.inr rfl) (by decide)

/-! ## C4 -/

/-- Item ids appearing after a `load` all come from the persisted list
or from freshly generated migration ids. -/
lemma load_ids_excluded (reachable : Bool) (now : Int) (base : List Item)
    (v5 : List LegacyItem) (store : List BlobRecord) (u : Nat) (rid : Nat)
    (hbase : ∀ k ∈ base, k.id ≠ rid) (hu : rid < u) :
    ∀ j ∈ (load reachable now (some base) v5 store u).items, j.id ≠ rid := by
  intro j hj
  unfold load at hj
  simp only [Option.getD_some] at hj
  by_cases hmig : ((base.isEmpty = true) ∧ ¬(v5.isEmpty = true))
  · rw [if_pos hmig] at hj
    simp only at hj
    have hjid : j.id ∈
        ((restoreBlobs reachable store (migrateLegacy now v5 u).1 []).1).map
          Item.id := List.mem_map_of_mem Item.id hj
    rw [restoreBlobs_map_id] at hjid
    rcases List.mem_map.mp hjid with ⟨k, hk, hkj⟩
    have := migrateLegacy_id_ge now v5 u k hk
    omega
  · rw [if_neg hmig] at hj
    simp only at hj
    have hjid : j.id ∈ ((restoreBlobs reachable store base []).1).map Item.id :=
      List.mem_map_of_mem Item.id hj
    rw [restoreBlobs_map_id] at hjid
    rcases List.mem_map.mp hjid with ⟨k, hk, hkj⟩
    rw [← hkj]
    exact hbase k hk

/-- The deleted item used by the C4 counterexample. -/
def cexItem4 : Item :=
  {id := 1, kind := "file", blobId := some 2, name := "a",
   mime := "application/pdf", size := 3}

/-- A state where item 1's blob record is present in the Blob Store but
absent from the session cache (as after a load whose restore round trips
failed). -/
def cexState4 : HubState :=
  {items := [cexItem4]
   cache := []
   store := [{id := 2, bytes := [9], mime := "application/pdf", size := 3}]
   v6 := some [cexItem4]
   v5 := []
   uidNext := 5}

/-- C4 counterexample: the blob record of the deleted item is present in
the Blob Store, yet `removeItem` leaves it there, because the source
only issues `blob.delete` when the session cache holds the blob id. -/
theorem C4_counterexample :
    cexItem4 ∈ cexState4.items ∧
    cexItem4.blobId = some 2 ∧
    lookupRecord cexState4.store 2 ≠ none ∧
    (removeItem cexState4 1).items = [] ∧
    lookupRecord (removeItem cexState4 1).store 2 ≠ none := by decide

/-- C4 (amended): deleting an item by id removes it from the in-memory
list; its blob record is removed from the Blob Store whenever the
session blob cache holds its blob id (a record present in the store but
missed by the cache is left behind); and a subsequent load never returns
an item with the deleted id (assuming unique ids and a fresh-id counter
ahead of every existing id, as the uid generator guarantees). -/
theorem C4_remove_item (st : HubState) (rid : Nat) (it : Item)
    (hmem : it ∈ st.items) (hid : it.id = rid)
    (hnodup : (st.items.map Item.id).Nodup)
    (hfresh : ∀ j ∈ st.items, j.id < st.uidNext) :
    (∀ j ∈ (removeItem st rid).items, j.id ≠ rid) ∧
    (∀ b, it.blobId = some b → b ∈ st.cache →
      lookupRecord (removeItem st rid).store b = none) ∧
    (∀ (reachable : Bool) (now : Int) (u : Nat), st.uidNext ≤ u →
      ∀ j ∈ (load reachable now (removeItem st rid).v6 (removeItem st rid).v5
        (removeItem st rid).store u).items, j.id ≠ rid) := by
  have hfind : st.items.find? (fun x => x.id = rid) = some it :=
    find?_id_unique st.items it rid hmem hid hnodup
  have hitems : (removeItem st rid).items =
      removeFirstBy st.items (fun x => x.id = rid) := by
    unfold removeItem
    rw [hfind]
    rcases hbid : it.blobId with _ | b
    · simp [persistMetadata, hbid]
    · by_cases hc : b ∈ st.cache <;> simp [persistMetadata, hbid, hc]
  have hv6 : (removeItem st rid).v6 =
      some ((removeFirstBy st.items (fun x => x.id = rid)).map
        stripTransient) := by
    unfold removeItem
    rw [hfind]
    rcases hbid : it.blobId with _ | b
    · simp [persistMetadata, hbid]
    · by_cases hc : b ∈ st.cache <;> simp [persistMetadata, hbid, hc]
  have hids : ∀ k ∈ removeFirstBy st.items (fun x => x.id = rid), k.id ≠ rid :=
    removeFirstBy_id_ne st.items rid hnodup
  refine ⟨?_, ?_, ?_⟩
  · rw [hitems]
    exact hids
  · intro b hb hc
    have hstore : (removeItem st rid).store = deleteRecord st.store b := by
      unfold removeItem
      rw [hfind]
      simp [persistMetadata, hb, hc]
    rw [hstore]
    exact lookupRecord_deleteRecord_self st.store b
  · intro reachable now u hu j hj
    rw [hv6] at hj
    have hrid : rid < u := by
      have := hfresh it hmem
      omega
    refine load_ids_excluded reachable now _ _ _ u rid ?_ hrid j hj
    intro k hk
    rcases List.mem_map.mp hk with ⟨k', hk', rfl⟩
    exact hids k' hk'

/-- The deleted item used by the C4 witness (blob id cached). -/
def witItem4 : Item :=
  {id := 3, kind := "file", blobId := some 9, name := "f",
   mime := "application/pdf", size := 1}

/-- A state where item 3's blob record is present and cached. -/
def witState4 : HubState :=
  {items := [witItem4]
   cache := [9]
   store := [{id := 9, bytes := [1], mime := "application/pdf", size := 1}]
   v6 := some [witItem4]
   v5 := []
   uidNext := 4}

/-- C4 witness: deleting the cached item removes its blob record. -/
theorem C4_witness :
    lookupRecord (removeItem witState4 3).store 9 = none :=
  (C4_remove_item witState4 3 witItem4 (by decide) rfl (by decide)
    (by decide)).2.1 9 rfl (by decide)

/-! ## C2 -/

/-- The blob record written by a successful `blob.put` issued from
`persistBlobToBackground`. -/
def putRecordOf (now : Int) (id : Nat) (p : BlobPlan) : BlobRecord :=
  {id := id
   bytes := p.ftp.bytes
   mime := if p.ftp.mime ≠ "" then p.ftp.mime else "application/octet-stream"
   name := p.ftp.name
   size := p.ftp.size
   lastModified := p.ftp.lastModified
   savedAt := now}

lemma addBlobResolve_putOk (env : IngestEnv) (now : Int) (st' : HubState)
    (id : Nat) (p : BlobPlan) (h : env.putOk id = true) :
    addBlobResolve env now st' id p =
      persistMetadata {st' with
        store := putRecord st'.store (putRecordOf now id p)
        items := updateById st'.items id (fun it => {it with pending := false})} := by
  unfold addBlobResolve
  rw [if_pos h]
  rfl

lemma addBlobResolve_fallback (env : IngestEnv) (now : Int) (st' : HubState)
    (id : Nat) (p : BlobPlan) (h1 : env.putOk id = false)
    (h2 : env.fallbackOk id = true) :
    addBlobResolve env now st' id p =
      persistMetadata {st' with
        items := updateById st'.items id (fun it =>
          {it with
             pending := false
             error := "persist_failed"
             dataUrl := blobToDataUrl p.ftp})} := by
  unfold addBlobResolve
  rw [if_neg (by simp [h1]), if_pos h2]

lemma addBlobResolve_sessionOnly (env : IngestEnv) (now : Int) (st' : HubState)
    (id : Nat) (p : BlobPlan) (h1 : env.putOk id = false)
    (h2 : env.fallbackOk id = false) :
    addBlobResolve env now st' id p =
      {st' with
        items := updateById st'.items id (fun it =>
          {it with pending := false, error := "persist_failed"})} := by
  unfold addBlobResolve
  rw [if_neg (by simp [h1]), if_neg (by simp [h2])]

/-- Shape of the state after `addBlob`'s synchronous phase: exactly one
new item, at the head, pending, with a fresh blob id; the store is
untouched and the payload has been cached. -/
lemma addBlob_sync_shape (env : IngestEnv) (now : Int) (st : HubState)
    (blob : FileData) (name kindHint : String) :
    ∃ x : Item,
      (addBlobSync env now st blob name kindHint).items = x :: st.items ∧
      x.id = st.uidNext ∧ x.pending = true ∧ x.blobId = some st.uidNext ∧
      x.error = "" ∧ x.dataUrl = "" ∧
      (addBlobSync env now st blob name kindHint).store = st.store ∧
      (addBlobSync env now st blob name kindHint).cache =
        st.uidNext :: st.cache := by
  refine ⟨{id := st.uidNext
           blobId := some st.uidNext
           kind := if strStartsWith (addBlobPlan env now blob name).mime "image/"
             then "image" else kindHint
           createdAt := now
           name := (addBlobPlan env now blob name).fileName
           mime := (addBlobPlan env now blob name).mime
           size := (addBlobPlan env now blob name).ftp.size
           pending := true}, rfl, rfl, rfl, rfl, rfl, rfl, rfl, rfl⟩

/-- C2: for every file candidate, `addBlob` creates exactly one item
synchronously, pending and at the head; when the asynchronous write
resolves, the item is no longer pending and either the payload is
persisted in the Blob Store under the item's blob id, or `error` is set
together with a non-empty data-URL fallback, or — if even the fallback
fails — the payload survives only in the session cache (no store record,
no data URL), while the item itself stays in the list. -/
theorem C2_addBlob_two_phase (env : IngestEnv) (now : Int) (st : HubState)
    (blob : FileData) (name kindHint : String)
    (hfresh : ∀ j ∈ st.items, j.id ≠ st.uidNext)
    (hstore : lookupRecord st.store st.uidNext = none) :
    (∃ x : Item,
      (addBlobSync env now st blob name kindHint).items = x :: st.items ∧
      x.pending = true ∧ x.blobId = some st.uidNext) ∧
    (∃ item : Item,
      (addBlob env now st blob name kindHint).items = item :: st.items ∧
      item.pending = false ∧ item.blobId = some st.uidNext ∧
      (env.putOk st.uidNext = true →
        item.error = "" ∧
        lookupRecord (addBlob env now st blob name kindHint).store
          st.uidNext =
          some (putRecordOf now st.uidNext (addBlobPlan env now blob name))) ∧
      (env.putOk st.uidNext = false →
        item.error ≠ "" ∧
        lookupRecord (addBlob env now st blob name kindHint).store
          st.uidNext = none ∧
        (env.fallbackOk st.uidNext = true → item.dataUrl ≠ "") ∧
        (env.fallbackOk st.uidNext = false →
          item.dataUrl = "" ∧
          st.uidNext ∈ (addBlob env now st blob name kindHint).cache))) := by
  obtain ⟨x, hxi, hxid, hxp, hxb, hxe, hxd, hxs, hxc⟩ :=
    addBlob_sync_shape env now st blob name kindHint
  have hblob : addBlob env now st blob name kindHint =
      addBlobResolve env now (addBlobSync env now st blob name kindHint)
        st.uidNext (addBlobPlan env now blob name) := rfl
  constructor
  · exact ⟨x, hxi, hxp, hxb⟩
  · cases hput : env.putOk st.uidNext with
    | true =>
      have hres := addBlobResolve_putOk env now
        (addBlobSync env now st blob name kindHint) st.uidNext
        (addBlobPlan env now blob name) hput
      refine ⟨{x with pending := false}, ?_, rfl, hxb, ?_, ?_⟩
      · rw [hblob, hres, hxi, updateById_cons_fresh x st.items st.uidNext
          (fun it => {it with pending := false}) hxid hfresh]
        rfl
      · intro _
        refine ⟨hxe, ?_⟩
        rw [hblob, hres, hxs]
        exact lookupRecord_putRecord_self st.store _
      · intro hcontra
        exact absurd hcontra (by decide)
    | false =>
      cases hfb : env.fallbackOk st.uidNext with
      | true =>
        have hres := addBlobResolve_fallback env now
          (addBlobSync env now st blob name kindHint) st.uidNext
          (addBlobPlan env now blob name) hput hfb
        refine ⟨{x with
            pending := false
            error := "persist_failed"
            dataUrl := blobToDataUrl (addBlobPlan env now blob name).ftp},
          ?_, rfl, hxb, ?_, ?_⟩
        · rw [hblob, hres, hxi, updateById_cons_fresh x st.items st.uidNext
            (fun it => {it with
              pending := false
              error := "persist_failed"
              dataUrl := blobToDataUrl (addBlobPlan env now blob name).ftp})
            hxid hfresh]
          rfl
        · intro hcontra
          exact absurd hcontra (by decide)
        · intro _
          refine ⟨(show ("persist_failed" : String) ≠ "" by decide), ?_, ?_, ?_⟩
          · rw [hblob, hres, hxs]
            exact hstore
          · intro _
            exact blobToDataUrl_ne_empty (addBlobPlan env now blob name).ftp
          · intro hcontra
            exact absurd hcontra (by decide)
      | false =>
        have hres := addBlobResolve_sessionOnly env now
          (addBlobSync env now st blob name kindHint) st.uidNext
          (addBlobPlan env now blob name) hput hfb
        refine ⟨{x with pending := false, error := "persist_failed"},
          ?_, rfl, hxb, ?_, ?_⟩
        · rw [hblob, hres, hxi, updateById_cons_fresh x st.items st.uidNext
            (fun it => {it with pending := false, error := "persist_failed"})
            hxid hfresh]
        · intro hcontra
          exact absurd hcontra (by decide)
        · intro _
          refine ⟨(show ("persist_failed" : String) ≠ "" by decide), ?_, ?_, ?_⟩
          · rw [hblob, hres, hxs]
            exact hstore
          · intro hcontra
            exact absurd hcontra (by decide)
          · intro _
            refine ⟨hxd, ?_⟩
            rw [hblob, hres, hxc]
            exact List.mem_cons_self st.uidNext st.cache

/-- A concrete file payload used by the C2 witness. -/
def witBlob2 : FileData :=
  {mime := "text/plain", name := "doc.txt", bytes := [104, 105], isFile := true}

/-- Ingest environment where the blob-store write fails but the data-URL
fallback succeeds. -/
def failPutEnv : IngestEnv :=
  {img := sampleImgEnv, putOk := fun _ => false, fallbackOk := fun _ => true}

/-- C2 witness: a successful write persists the record under the fresh
blob id, the synchronous phase adds exactly one item, and a failing
write still leaves the item in the list. -/
theorem C2_witness :
    (addBlobSync sampleIngestEnv 3 {} witBlob2 "n" "file").items.length = 1 ∧
    lookupRecord (addBlob sampleIngestEnv 3 {} witBlob2 "n" "file").store 0 =
      some (putRecordOf 3 0 (addBlobPlan sampleIngestEnv 3 witBlob2 "n")) ∧
    (addBlob failPutEnv 3 {} witBlob2 "n" "file").items ≠ [] := by
  obtain ⟨⟨x, hx, -, -⟩, ⟨item, hi, -, -, hsucc, -⟩⟩ :=
    C2_addBlob_two_phase sampleIngestEnv 3 {} witBlob2 "n" "file"
      (fun j hj => absurd hj (List.not_mem_nil j)) rfl
  obtain ⟨-, ⟨item2, hi2, -, -, -, -⟩⟩ :=
    C2_addBlob_two_phase failPutEnv 3 {} witBlob2 "n" "file"
      (fun j hj => absurd hj (List.not_mem_nil j)) rfl
  refine ⟨?_, ?_, ?_⟩
  · rw [hx]
    rfl
  · exact (hsucc rfl).2
  · rw [hi2]
    simp

/-! ## C7 -/

/-- The oversized square image of the C7 counterexample: 3 MiB-ish,
2049 × 2049 px. -/
def cexBlob7 : FileData :=
  {mime := "image/png", bytes := List.replicate 2097153 0,
   width := 2049, height := 2049}

/-- C7 counterexample: an image above the soft size limit whose longer
dimension (2049) exceeds the 2048 px maximum is returned UNCHANGED,
because the computed scale 2048/2049 passes the `scale >= 0.999` no-op
test — so the returned image does not have both dimensions at most the
maximum, contradicting the claim. -/
theorem C7_counterexample :
    strStartsWith cexBlob7.mime "image/" = true ∧
    imageSoftLimit < cexBlob7.size ∧
    imageMaxDim < max cexBlob7.width cexBlob7.height ∧
    maybeCompressImage sampleImgEnv cexBlob7 = cexBlob7 ∧
    imageMaxDim < (maybeCompressImage sampleImgEnv cexBlob7).width := by
  have hsize : cexBlob7.size = 2097153 := by
    show (List.replicate 2097153 0).length = 2097153
    rw [List.length_replicate]
  have hmime : cexBlob7.mime = "image/png" := rfl
  have hscale : scaleOf cexBlob7 = (2048 : ℚ) / 2049 := by
    have hw : cexBlob7.width = 2049 := rfl
    have hh : cexBlob7.height = 2049 := rfl
    unfold scaleOf
    rw [hw, hh]
    rw [if_neg (by norm_num), clampQ]
    rw [max_eq_right (by norm_num [imageMaxDim]),
      min_eq_right (by norm_num [imageMaxDim])]
    norm_num [imageMaxDim]
  have heq : maybeCompressImage sampleImgEnv cexBlob7 = cexBlob7 := by
    unfold maybeCompressImage
    rw [if_neg (by rw [hmime]; decide),
      if_neg (by rw [hsize]; norm_num [imageSoftLimit]),
      if_neg (by rw [show sampleImgEnv.decodeOk = true from rfl]; decide),
      if_pos (by
        rw [hscale, div_le_div_iff₀ (by norm_num) (by norm_num)]
        norm_num)]
  refine ⟨by rw [hmime]; decide, by rw [hsize]; norm_num [imageSoftLimit],
    by decide, heq, by rw [heq]; decide⟩

/-- C7 (amended): the transcoder returns the payload byte-identical when
it is not image-like or at most 2 MiB.  For an image above the limit,
when decode and canvas succeed, the encoder produces blobs of the
requested dimensions that are strictly smaller than the original, and
the longer dimension lies in the compressing regime 2051..13653 px
(below 2051 the 0.999-scale no-op test returns the original unchanged;
above 13653 the 0.15 scale floor yields dimensions above the maximum),
the result has both dimensions at most 2048 px. -/
theorem C7_image_transcoder (env : ImgEnv) (blob : FileData) :
    ((¬ strStartsWith blob.mime "image/" = true ∨
        blob.size ≤ imageSoftLimit) →
      maybeCompressImage env blob = blob) ∧
    ((∀ w h, ∃ out, env.encode w h = some out ∧ out.width = w ∧
        out.height = h ∧ 0 < out.size ∧ out.size < blob.size) →
      strStartsWith blob.mime "image/" = true →
      imageSoftLimit < blob.size →
      env.decodeOk = true → env.ctxOk = true →
      2051 ≤ max blob.width blob.height →
      max blob.width blob.height ≤ 13653 →
      (maybeCompressImage env blob).width ≤ imageMaxDim ∧
      (maybeCompressImage env blob).height ≤ imageMaxDim) := by
  constructor
  · intro h
    by_cases himg : strStartsWith blob.mime "image/" = true
    · rcases h with h | h
      · exact absurd himg h
      · unfold maybeCompressImage
        rw [if_neg (not_not_intro himg), if_pos h]
    · unfold maybeCompressImage
      rw [if_pos himg]
  · intro henc himg hsize hdec hctx hlo hhi
    set m := max blob.width blob.height with hm
    have hm0 : (0:ℚ) < (m:ℚ) := by
      have : 0 < m := by omega
      exact_mod_cast this
    have hmQlo : (2051:ℚ) ≤ (m:ℚ) := by exact_mod_cast hlo
    have hmQhi : (m:ℚ) ≤ 13653 := by exact_mod_cast hhi
    have hcast : ((imageMaxDim : Nat) : ℚ) = 2048 := by norm_num [imageMaxDim]
    have h15 : (15:ℚ)/100 ≤ ((imageMaxDim : Nat) : ℚ)/(m:ℚ) := by
      rw [hcast, div_le_div_iff₀ (by norm_num) hm0]
      nlinarith
    have h1' : ((imageMaxDim : Nat) : ℚ)/(m:ℚ) ≤ 1 := by
      rw [hcast, div_le_one hm0]
      linarith
    have hscale : scaleOf blob = (2048:ℚ) / (m:ℚ) := by
      unfold scaleOf clampQ
      rw [← hm, if_neg (by omega), max_eq_right h15, min_eq_right h1', hcast]
    have hsc999 : ¬((999:ℚ)/1000 ≤ scaleOf blob) := by
      rw [hscale, div_le_div_iff₀ (by norm_num) hm0]
      intro hcontra
      nlinarith
    have hbound : ∀ d : Nat, d ≤ m →
        max 1 (jsRound ((d:ℚ) * scaleOf blob)).toNat ≤ 2048 := by
      intro d hd
      have hdQ : (d:ℚ) ≤ (m:ℚ) := by exact_mod_cast hd
      have hq : (d:ℚ) * ((2048:ℚ)/(m:ℚ)) ≤ 2048 := by
        rw [← mul_div_assoc, div_le_iff₀ hm0]
        nlinarith
      have hfl : jsRound ((d:ℚ) * scaleOf blob) ≤ 2048 := by
        unfold jsRound
        rw [hscale]
        have h2 : (d:ℚ) * (2048/(m:ℚ)) + 1/2 ≤ (2048:ℚ) + 1/2 := by linarith
        have h3 := Int.floor_le_floor h2
        have h4 : ⌊(2048:ℚ) + 1/2⌋ = 2048 := by norm_num
        omega
      omega
    have htW : targetW blob ≤ 2048 := by
      unfold targetW
      exact hbound blob.width (le_max_left _ _)
    have htH : targetH blob ≤ 2048 := by
      unfold targetH
      exact hbound blob.height (le_max_right _ _)
    obtain ⟨out, hout, how, hoh, hos, hol⟩ := henc (targetW blob) (targetH blob)
    have heq : maybeCompressImage env blob = out := by
      unfold maybeCompressImage
      rw [if_neg (not_not_intro himg), if_neg (by omega),
        if_neg (not_not_intro hdec), if_neg hsc999,
        if_neg (not_not_intro hctx), hout]
      show (if 0 < out.size ∧ out.size < blob.size then out else blob) = out
      rw [if_pos ⟨hos, hol⟩]
    rw [heq, how, hoh]
    exact ⟨htW, htH⟩

/-- The 4096 × 4096 image of the C7 witness. -/
def witBlob7 : FileData :=
  {mime := "image/png", bytes := List.replicate 2097153 0,
   width := 4096, height := 4096}

/-- A transcoder environment whose encoder always yields a tiny blob of
the requested dimensions. -/
def witImgEnv : ImgEnv :=
  {decodeOk := true, ctxOk := true,
   encode := fun w h =>
     some {mime := "image/webp", bytes := [0], width := w, height := h}}

/-- C7 witness: a non-image payload passes through unchanged, and a
4096 px image above the limit comes back within the 2048 px maximum. -/
theorem C7_witness :
    maybeCompressImage witImgEnv ({mime := "text/plain", bytes := [1]} :
      FileData) = {mime := "text/plain", bytes := [1]} ∧
    (maybeCompressImage witImgEnv witBlob7).width ≤ imageMaxDim ∧
    (maybeCompressImage witImgEnv witBlob7).height ≤ imageMaxDim := by
  have hsize : witBlob7.size = 2097153 := by
    show (List.replicate 2097153 0).length = 2097153
    rw [List.length_replicate]
  refine ⟨?_, ?_⟩
  · exact (C7_image_transcoder witImgEnv
      {mime := "text/plain", bytes := [1]}).1 (Or.inl (by decide))
  · have henc : ∀ w h, ∃ out, witImgEnv.encode w h = some out ∧
        out.width = w ∧ out.height = h ∧ 0 < out.size ∧
        out.size < witBlob7.size := by
      intro w h
      refine ⟨_, rfl, rfl, rfl,
        (show (0:Nat) < ([0] : List Nat).length by decide), ?_⟩
      rw [hsize]
      show ([0] : List Nat).length < 2097153
      decide
    exact (C7_image_transcoder witImgEnv witBlob7).2 henc (by decide)
      (by rw [hsize]; norm_num [imageSoftLimit]) rfl rfl (by decide) (by decide)
